import Mathlib

/-!
# Verification of the Mugimaru social-auth core (`src/lib/social-auth.ts`)

Shallow embedding of the OAuth2 PKCE authentication core: the hand-rolled
SHA-256 digest engine, the Base64 / Base64URL codec, the PKCE helpers
(`randomString`, `createCodeChallenge`), the JWT payload extractor, the
OAuth callback parser (`parseOAuthUrl`), and the LINE / X profile
normalization steps of `authenticateWithLine` / `authenticateWithX`.

Modelling conventions:
* JavaScript strings are `List Nat` of UTF-16 code units; byte sequences
  (`Uint8Array`) are `List Nat` with entries `< 256`.
* 32-bit JavaScript arithmetic is `Nat` arithmetic with explicit `% 2^32`.
  The source mixes `| 0` (ToInt32) and `>>> 0` (ToUint32) coercions; both
  preserve the value modulo `2^32`, and every bitwise operator in the source
  is applied to values whose signed and unsigned 32-bit views agree on the
  extracted bits, so the embedding works with the unsigned residue
  throughout.
* Thrown `Error`s become `Except` errors; the exact message strings of the
  source are kept (as code-unit lists) via explicit message functions.
* External effects (network fetches, the interactive browser session,
  `expo-linking` URL parsing, `JSON.parse`) are inputs of the embedded
  functions: each pure slice of the source is modelled on the data those
  collaborators hand to it.
-/

set_option maxRecDepth 4000

/-- UTF-16 code units of a Lean string literal (all literals used here are
ASCII, where code units, code points and UTF-8 bytes coincide). -/
def strUnits (s : String) : List Nat := s.data.map Char.toNat

/-! ## SHA-256 digest engine (source lines 144–232 of `social-auth.ts`) -/

/-- The 64 SHA-256 round constants (`SHA256_K` in the source, lines 65-74;
the decimal forms of the hex table `0x428a2f98, 0x71374491, ...`). -/
def SHA256_K : List Nat := [
  1116352408, 1899447441, 3049323471, 3921009573, 961987163, 1508970993,
  2453635748, 2870763221, 3624381080, 310598401, 607225278, 1426881987,
  1925078388, 2162078206, 2614888103, 3248222580, 3835390401, 4022224774,
  264347078, 604807628, 770255983, 1249150122, 1555081692, 1996064986,
  2554220882, 2821834349, 2952996808, 3210313671, 3336571891, 3584528711,
  113926993, 338241895, 666307205, 773529912, 1294757372, 1396182291,
  1695183700, 1986661051, 2177026350, 2456956037, 2730485921, 2820302411,
  3259730800, 3345764771, 3516065817, 3600352804, 4094571909, 275423344,
  430227734, 506948616, 659060556, 883997877, 958139571, 1322822218,
  1537002063, 1747873779, 1955562222, 2024104815, 2227730452, 2361852424,
  2428436474, 2756734187, 3204031479, 3329325298]

/-- Source `rightRotate(value, amount)`: `(value >>> amount) | (value << (32 - amount))`
on the unsigned 32-bit view (`amount` is between 2 and 25 at every call site). -/
def rightRotate (value amount : Nat) : Nat :=
  (value >>> amount) ||| ((value <<< (32 - amount)) % 2 ^ 32)

/-- The eight 32-bit working registers of the compression function. -/
structure Sha256State where
  a : Nat
  b : Nat
  c : Nat
  d : Nat
  e : Nat
  f : Nat
  g : Nat
  h : Nat
deriving Repr, DecidableEq

/-- The standard SHA-256 initialisation vector (`h0`…`h7` in the source:
`0x6a09e667 … 0x5be0cd19` written in decimal). -/
def sha256Init : Sha256State :=
  ⟨1779033703, 3144134277, 1013904242, 2773480762,
   1359893119, 2600822924, 528734635, 1541459225⟩

/-- One round of the inner compression loop (source lines 193–209).  In the
source the additions are chained through `| 0` / `>>> 0` coercions; every such
chain preserves the sum modulo `2^32`, which is what is kept here.  `~e` on a
value `< 2^32` is the unsigned complement `e ^^^ 0xffffffff`. -/
def compressRound (s : Sha256State) (kw : Nat × Nat) : Sha256State :=
  let S1 := rightRotate s.e 6 ^^^ rightRotate s.e 11 ^^^ rightRotate s.e 25
  let ch := (s.e &&& s.f) ^^^ ((s.e ^^^ 0xffffffff) &&& s.g)
  let temp1 := (s.h + S1 + ch + kw.1 + kw.2) % 2 ^ 32
  let S0 := rightRotate s.a 2 ^^^ rightRotate s.a 13 ^^^ rightRotate s.a 22
  let maj := (s.a &&& s.b) ^^^ (s.a &&& s.c) ^^^ (s.b &&& s.c)
  let temp2 := (S0 + maj) % 2 ^ 32
  { a := (temp1 + temp2) % 2 ^ 32, b := s.a, c := s.b, d := s.c,
    e := (s.d + temp1) % 2 ^ 32, f := s.e, g := s.f, h := s.g }

/-- Big-endian 32-bit words of a byte list (`view.getUint32(offset + i * 4)`
for `i = 0 … 15` over a 64-byte block). -/
def bytesToWordsBE : List Nat → List Nat
  | a :: b :: c :: d :: rest =>
      ((a <<< 24) ||| (b <<< 16) ||| (c <<< 8) ||| d) :: bytesToWordsBE rest
  | _ => []

/-- Message-schedule extension (source lines 178–182): starting from the 16
block words, append words 16…63.  `(((w[i-16] + s0) | 0) + ((w[i-7] + s1) | 0))
>>> 0` equals the plain sum modulo `2^32`. -/
def extendSchedule : Nat → List Nat → List Nat
  | 0, w => w
  | n + 1, w =>
      let i := w.length
      let w15 := w.getD (i - 15) 0
      let w2 := w.getD (i - 2) 0
      let s0 := rightRotate w15 7 ^^^ rightRotate w15 18 ^^^ (w15 >>> 3)
      let s1 := rightRotate w2 17 ^^^ rightRotate w2 19 ^^^ (w2 >>> 10)
      extendSchedule n (w ++ [(w.getD (i - 16) 0 + s0 + w.getD (i - 7) 0 + s1) % 2 ^ 32])

/-- Process one 64-byte block (source lines 174–219): build the 64-word
schedule, run 64 compression rounds, add the result into the running state. -/
def compressBlock (hs : Sha256State) (block : List Nat) : Sha256State :=
  let w := extendSchedule 48 (bytesToWordsBE block)
  let t := (SHA256_K.zip w).foldl compressRound hs
  { a := (hs.a + t.a) % 2 ^ 32, b := (hs.b + t.b) % 2 ^ 32,
    c := (hs.c + t.c) % 2 ^ 32, d := (hs.d + t.d) % 2 ^ 32,
    e := (hs.e + t.e) % 2 ^ 32, f := (hs.f + t.f) % 2 ^ 32,
    g := (hs.g + t.g) % 2 ^ 32, h := (hs.h + t.h) % 2 ^ 32 }

/-- Split a list into chunks of 64 elements (the `offset += 64` outer loop);
`fuel` is instantiated with the list length, which bounds the number of
chunks, keeping the recursion structural. -/
def chunks64 : Nat → List Nat → List (List Nat)
  | 0, _ => []
  | _, [] => []
  | fuel + 1, l => l.take 64 :: chunks64 fuel (l.drop 64)

/-- Big-endian bytes of a 32-bit word (`DataView.setUint32`, big-endian). -/
def u32be (x : Nat) : List Nat :=
  [(x >>> 24) &&& 255, (x >>> 16) &&& 255, (x >>> 8) &&& 255, x &&& 255]

/-- SHA-256 padding (source lines 149–161): append `0x80`, zero-fill to 64-byte
alignment leaving 8 bytes, and write the bit length as two big-endian 32-bit
words (`high = ⌊bitLength / 2^32⌋`, `low = bitLength >>> 0 = bitLength % 2^32`). -/
def sha256Pad (message : List Nat) : List Nat :=
  let length := message.length
  let bitLength := length * 8
  let withOneByte := length + 1
  let paddedLength := ((withOneByte + 8 + 63) / 64) * 64
  let high := bitLength / 2 ^ 32
  let low := bitLength % 2 ^ 32
  message ++ [0x80] ++ List.replicate (paddedLength - length - 9) 0 ++ u32be high ++ u32be low

/-- Source `sha256(message)` (source lines 148–232): pad, compress each 64-byte block,
and emit the eight registers as big-endian bytes. -/
def sha256 (message : List Nat) : List Nat :=
  let padded := sha256Pad message
  let final := (chunks64 padded.length padded).foldl compressBlock sha256Init
  u32be final.a ++ u32be final.b ++ u32be final.c ++ u32be final.d ++
  u32be final.e ++ u32be final.f ++ u32be final.g ++ u32be final.h

/-! ## Base64 / Base64URL codec (source lines 124–142 and 234–260) -/

/-- Source `BASE64_CHARS` (source line 63), as UTF-16 code units. -/
def BASE64_CHARS : List Nat :=
  strUnits "ABCDEFGHIJKLMNOPQRSTUVWXYZabcdefghijklmnopqrstuvwxyz0123456789+/"

/-- Source `BASE64_CHARS[n & 63]` — the indexing used in `bytesToBase64`, where every
index is masked with `& 63` and therefore in range. -/
def b64Char (n : Nat) : Nat := BASE64_CHARS.getD (n &&& 63) 0

/-- Source `bytesToBase64(bytes)` (source lines 124–138): encode 3 bytes into 4
characters; the last group pads missing bytes with `0` and emits `=` for each
missing input byte, exactly as the `i + 1 < bytes.length` tests do. -/
def bytesToBase64 : List Nat → List Nat
  | [] => []
  | [a] =>
      let triple := (a <<< 16) ||| (0 <<< 8) ||| 0
      [b64Char (triple >>> 18), b64Char (triple >>> 12), 61, 61]
  | [a, b] =>
      let triple := (a <<< 16) ||| (b <<< 8) ||| 0
      [b64Char (triple >>> 18), b64Char (triple >>> 12), b64Char (triple >>> 6), 61]
  | a :: b :: c :: rest =>
      let triple := (a <<< 16) ||| (b <<< 8) ||| c
      [b64Char (triple >>> 18), b64Char (triple >>> 12), b64Char (triple >>> 6),
       b64Char triple] ++ bytesToBase64 rest

/-- The combined character substitution of `toBase64Url`:
`+` (43) becomes `-` (45), `/` (47) becomes `_` (95). -/
def substChar (c : Nat) : Nat := if c = 43 then 45 else if c = 47 then 95 else c

/-- Drop the maximal trailing run of `=` (61) characters — the effect of
`.replace(/=+$/g, '')`. -/
def dropTrailingEq : List Nat → List Nat
  | [] => []
  | c :: rest =>
      let r := dropTrailingEq rest
      if r = [] ∧ c = 61 then [] else c :: r

/-- Source `toBase64Url(base64)` (source lines 140–142): substitute `+`→`-` then
`/`→`_`, then strip trailing `=` padding. -/
def toBase64Url (base64 : List Nat) : List Nat :=
  dropTrailingEq ((base64.map (fun c => if c = 43 then 45 else c)).map
    (fun c => if c = 47 then 95 else c))

/-- The URL-safe Base64 alphabet `[A-Za-z0-9-_]` named by the specification. -/
def URL_SAFE_CHARS : List Nat :=
  strUnits "ABCDEFGHIJKLMNOPQRSTUVWXYZabcdefghijklmnopqrstuvwxyz0123456789-_"

/-- Indexing into the URL-safe alphabet, masked like `b64Char`. -/
def urlChar (n : Nat) : Nat := URL_SAFE_CHARS.getD (n &&& 63) 0

/-- Modelled from the spec: the unpadded Base64URL encoding — 6-bit groups
mapped straight into the URL-safe alphabet, no padding characters, a final
1-byte group yielding 2 characters and a final 2-byte group yielding 3. -/
def base64UrlSpec : List Nat → List Nat
  | [] => []
  | [a] =>
      let triple := (a <<< 16) ||| (0 <<< 8) ||| 0
      [urlChar (triple >>> 18), urlChar (triple >>> 12)]
  | [a, b] =>
      let triple := (a <<< 16) ||| (b <<< 8) ||| 0
      [urlChar (triple >>> 18), urlChar (triple >>> 12), urlChar (triple >>> 6)]
  | a :: b :: c :: rest =>
      let triple := (a <<< 16) ||| (b <<< 8) ||| c
      [urlChar (triple >>> 18), urlChar (triple >>> 12), urlChar (triple >>> 6),
       urlChar triple] ++ base64UrlSpec rest

/-- Source `String.prototype.indexOf` over a character list: index of the first
occurrence, `-1` when absent. -/
def jsIndexOfAux : List Nat → Nat → Nat → Int
  | [], _, _ => -1
  | x :: rest, c, i => if x = c then Int.ofNat i else jsIndexOfAux rest c (i + 1)

/-- Source `BASE64_CHARS.indexOf(c)`-style lookup. -/
def jsIndexOf (l : List Nat) (c : Nat) : Int := jsIndexOfAux l c 0

/-- The unsigned 32-bit view of a JavaScript number used in bitwise context
(`-1` becomes `0xffffffff`). -/
def u32OfInt (i : Int) : Nat := (i % 2 ^ 32).toNat

/-- One 4-character group of the decoding loop of `base64UrlToString` (source
lines 239–249).  `c1 << 18 | c2 << 12 | …` is computed on 32-bit integers; as
only bits 0–23 of `chunk` are read back (each through `& 0xff`), the unsigned
residue `% 2^32` is an exact model.  `c3`/`c4` are `-1` for `=` and are
replaced by `0` before shifting; a byte is pushed for them only when
non-negative. -/
def decodeGroup (p1 p2 p3 p4 : Nat) : List Nat :=
  let c1 := jsIndexOf BASE64_CHARS p1
  let c2 := jsIndexOf BASE64_CHARS p2
  let c3 := if p3 = 61 then -1 else jsIndexOf BASE64_CHARS p3
  let c4 := if p4 = 61 then -1 else jsIndexOf BASE64_CHARS p4
  let chunk := ((u32OfInt c1 <<< 18) ||| (u32OfInt c2 <<< 12) |||
    ((if c3 < 0 then 0 else c3.toNat) <<< 6) ||| (if c4 < 0 then 0 else c4.toNat)) % 2 ^ 32
  [(chunk >>> 16) &&& 0xff] ++
  (if 0 ≤ c3 then [(chunk >>> 8) &&& 0xff] else []) ++
  (if 0 ≤ c4 then [chunk &&& 0xff] else [])

/-- The `for (i += 4)` decoding loop over the padded string (whose length is
always a multiple of 4 after `padEnd`). -/
def decodeGroups : List Nat → List Nat
  | p1 :: p2 :: p3 :: p4 :: rest => decodeGroup p1 p2 p3 p4 ++ decodeGroups rest
  | _ => []

/-- The byte-recovery portion of `base64UrlToString` (source lines 235–249):
substitute `-`→`+` and `_`→`/`, re-insert `=` padding to a multiple of 4
(`padEnd(Math.ceil(len / 4) * 4, '=')`), and decode 4-character groups. -/
def base64UrlToBytes (input : List Nat) : List Nat :=
  let base64 := (input.map (fun c => if c = 45 then 43 else c)).map
    (fun c => if c = 95 then 47 else c)
  let padded := base64 ++ List.replicate (((base64.length + 3) / 4) * 4 - base64.length) 61
  decodeGroups padded

/-- The decoder's reverse substitution `-`→`+`, `_`→`/` combined. -/
def unsubChar (c : Nat) : Nat := if c = 45 then 43 else if c = 95 then 47 else c

/-- Append the `=` padding that `padEnd(Math.ceil(len / 4) * 4, '=')` inserts. -/
def padTo4 (l : List Nat) : List Nat :=
  l ++ List.replicate (((l.length + 3) / 4) * 4 - l.length) 61

/-! ## UTF-8 transcoding (`TextEncoder` / `TextDecoder`)

`TextEncoder.encode` and `TextDecoder.decode` are the platform text codecs
used by `createCodeChallenge` and `base64UrlToString`; they follow the WHATWG
Encoding standard: UTF-8 with `U+FFFD` replacement of errors (a default
`TextDecoder` is non-fatal and never throws, so the `catch` fallback of
`base64UrlToString` is unreachable where `TextDecoder` exists). -/

/-- UTF-8 bytes of one code point (callers only pass scalar values). -/
def utf8EncodeCp (cp : Nat) : List Nat :=
  if cp < 0x80 then [cp]
  else if cp < 0x800 then [0xc0 ||| (cp >>> 6), 0x80 ||| (cp &&& 0x3f)]
  else if cp < 0x10000 then
    [0xe0 ||| (cp >>> 12), 0x80 ||| ((cp >>> 6) &&& 0x3f), 0x80 ||| (cp &&& 0x3f)]
  else
    [0xf0 ||| (cp >>> 18), 0x80 ||| ((cp >>> 12) &&& 0x3f),
     0x80 ||| ((cp >>> 6) &&& 0x3f), 0x80 ||| (cp &&& 0x3f)]

/-- Source `new TextEncoder().encode(s)`: UTF-8 encode a UTF-16 code-unit sequence,
combining surrogate pairs and replacing lone surrogates with `U+FFFD`. -/
def utf8Encode : List Nat → List Nat
  | [] => []
  | [u] =>
      if 0xd800 ≤ u ∧ u ≤ 0xdfff then utf8EncodeCp 0xfffd else utf8EncodeCp u
  | u :: v :: rest =>
      if 0xd800 ≤ u ∧ u ≤ 0xdbff then
        if 0xdc00 ≤ v ∧ v ≤ 0xdfff then
          utf8EncodeCp (0x10000 + ((u - 0xd800) <<< 10) + (v - 0xdc00)) ++ utf8Encode rest
        else utf8EncodeCp 0xfffd ++ utf8Encode (v :: rest)
      else if 0xdc00 ≤ u ∧ u ≤ 0xdfff then utf8EncodeCp 0xfffd ++ utf8Encode (v :: rest)
      else utf8EncodeCp u ++ utf8Encode (v :: rest)

/-- UTF-16 code units of a code point (surrogate pair above `U+FFFF`). -/
def utf16Units (cp : Nat) : List Nat :=
  if cp < 0x10000 then [cp]
  else [0xd800 + ((cp - 0x10000) >>> 10), 0xdc00 + ((cp - 0x10000) &&& 0x3ff)]

/-- Result of feeding one byte to the WHATWG UTF-8 decoder in its start state. -/
inductive Utf8Start where
  | emit (unit : Nat)
  | continued (cp needed lower upper : Nat)
  | invalid

/-- The start-state transition of the WHATWG UTF-8 decoder. -/
def utf8StartByte (b : Nat) : Utf8Start :=
  if b ≤ 0x7f then .emit b
  else if 0xc2 ≤ b ∧ b ≤ 0xdf then .continued (b &&& 0x1f) 1 0x80 0xbf
  else if 0xe0 ≤ b ∧ b ≤ 0xef then
    .continued (b &&& 0xf) 2 (if b = 0xe0 then 0xa0 else 0x80) (if b = 0xed then 0x9f else 0xbf)
  else if 0xf0 ≤ b ∧ b ≤ 0xf4 then
    .continued (b &&& 0x7) 3 (if b = 0xf0 then 0x90 else 0x80) (if b = 0xf4 then 0x8f else 0xbf)
  else .invalid

/-- WHATWG UTF-8 decode with replacement: the state is `none` between
sequences and `some (codePoint, bytesNeeded, bytesSeen, lower, upper)` inside
one.  A continuation byte outside `[lower, upper]` emits `U+FFFD` and
reprocesses that byte from the start state (the standard's prepend step). -/
def utf8DecodeLoop : List Nat → Option (Nat × Nat × Nat × Nat × Nat) → List Nat
  | [], none => []
  | [], some _ => [0xfffd]
  | b :: rest, none =>
      match utf8StartByte b with
      | .emit u => u :: utf8DecodeLoop rest none
      | .continued cp needed lower upper => utf8DecodeLoop rest (some (cp, needed, 0, lower, upper))
      | .invalid => 0xfffd :: utf8DecodeLoop rest none
  | b :: rest, some (cp, needed, seen, lower, upper) =>
      if lower ≤ b ∧ b ≤ upper then
        let cp2 := (cp <<< 6) ||| (b &&& 0x3f)
        if seen + 1 = needed then utf16Units cp2 ++ utf8DecodeLoop rest none
        else utf8DecodeLoop rest (some (cp2, needed, seen + 1, 0x80, 0xbf))
      else
        0xfffd :: (match utf8StartByte b with
          | .emit u => u :: utf8DecodeLoop rest none
          | .continued cp2 needed2 lower2 upper2 =>
              utf8DecodeLoop rest (some (cp2, needed2, 0, lower2, upper2))
          | .invalid => 0xfffd :: utf8DecodeLoop rest none)

/-- Source `new TextDecoder().decode(bytes)`. -/
def textDecode (bytes : List Nat) : List Nat := utf8DecodeLoop bytes none

/-- Source `base64UrlToString(input)` (source lines 234–260): recover the bytes, then
UTF-8-decode them.  A default `TextDecoder` never throws (it replaces invalid
sequences with `U+FFFD`), so the `catch` branch returning the raw char-code
string is dead where the platform provides `TextDecoder`. -/
def base64UrlToString (input : List Nat) : List Nat :=
  textDecode (base64UrlToBytes input)

/-! ## PKCE helpers (source lines 107–122 and 262–266) -/

/-- Source `PKCE_CHARSET` (source line 62): the 66 unreserved PKCE characters. -/
def PKCE_CHARSET : List Nat :=
  strUnits "ABCDEFGHIJKLMNOPQRSTUVWXYZabcdefghijklmnopqrstuvwxyz0123456789-._~"

/-- Source `randomString(length)` (source lines 107–122): fill a `Uint8Array` from the
random source (modelled as an arbitrary byte stream `randomBytes`, each entry
stored modulo 256 as a `Uint8Array` does) and map each byte to
`PKCE_CHARSET[byte % PKCE_CHARSET.length]`. -/
def randomString (length : Nat) (randomBytes : Nat → Nat) : List Nat :=
  (List.range length).map (fun i => PKCE_CHARSET.getD ((randomBytes i % 256) % PKCE_CHARSET.length) 0)

/-- Source `createCodeChallenge(codeVerifier)` (source lines 262–266): UTF-8 encode
the verifier, hash it, Base64URL-encode the digest. -/
def createCodeChallenge (codeVerifier : List Nat) : List Nat :=
  toBase64Url (bytesToBase64 (sha256 (utf8Encode codeVerifier)))

/-! ## JWT payload extractor (source lines 313–324) -/

/-- The loosely-typed decoded ID-token payload (`JwtPayload` in the source). -/
structure JwtPayload where
  sub : Option (List Nat)
  name : Option (List Nat)
  email : Option (List Nat)
deriving Repr, DecidableEq

/-- Source `token.split('.')` with `.` = code unit 46. -/
def splitOnDotAux : List Nat → List Nat → List (List Nat)
  | [], acc => [acc.reverse]
  | c :: rest, acc =>
      if c = 46 then acc.reverse :: splitOnDotAux rest [] else splitOnDotAux rest (c :: acc)

/-- Source `token.split('.')`. -/
def splitOnDot (s : List Nat) : List (List Nat) := splitOnDotAux s []

/-- Source `parseJwtPayload(token)` (source lines 313–324).  `JSON.parse` is an
external collaborator, modelled by the argument `jsonParse`: `none` stands for
a thrown parse error (caught and turned into `null`), `some p` for a parsed
object exposing the optional `sub` / `name` / `email` claims.
`base64UrlToString` is total, so the `try` block can only fail in
`JSON.parse`.  `if (!token)` is also true for the empty string. -/
def parseJwtPayload (jsonParse : List Nat → Option JwtPayload) :
    Option (List Nat) → Option JwtPayload
  | none => none
  | some token =>
      if token = [] then none
      else
        let parts := splitOnDot token
        if parts.length < 2 then none
        else jsonParse (base64UrlToString (parts.getD 1 []))

/-! ## OAuth callback parsing (source lines 99–101 and 268–289)

`Linking.parse` is an external collaborator; `parseOAuthUrl` is modelled on
the query-parameter record it produces.  A parsed query value is either
absent, a string, an array of strings (repeated parameters), or some other
non-string value. -/

/-- A value of the loosely-typed `queryParams` record. -/
inductive JSValue where
  | undef
  | str (s : List Nat)
  | arr (elems : List (List Nat))
  | other
deriving Repr, DecidableEq

/-- Source `normalizeString(value)` (source lines 99–101): identity on strings, empty
string on everything else. -/
def normalizeString : JSValue → List Nat
  | .str s => s
  | _ => []

/-- Whether a query value is a string (`typeof value === 'string'`). -/
def JSValue.isStr : JSValue → Bool
  | .str _ => true
  | _ => false

/-- The query parameters `parseOAuthUrl` reads from the redirect URL. -/
structure QueryParams where
  error : JSValue
  error_description : JSValue
  state : JSValue
  code : JSValue
deriving Repr, DecidableEq

/-- Source `OAuthSessionResult` (source lines 13–15). -/
structure OAuthSessionResult where
  code : List Nat
deriving Repr, DecidableEq

/-- The three `throw new Error(...)` sites of `parseOAuthUrl`, keeping the
data each message is built from. -/
inductive OAuthError where
  | provider (error errorDescription : List Nat)
  | invalidState
  | missingCode
deriving Repr, DecidableEq

/-- The exact `Error` message of each `parseOAuthUrl` failure:
`` errorDescription ? `${error}: ${errorDescription}` : error ``,
`'Invalid OAuth state.'`, and
`'Authorization code was not returned by provider.'`. -/
def OAuthError.message : OAuthError → List Nat
  | .provider e d => if d ≠ [] then e ++ strUnits ": " ++ d else e
  | .invalidState => strUnits "Invalid OAuth state."
  | .missingCode => strUnits "Authorization code was not returned by provider."

/-- Source `parseOAuthUrl(url, expectedState)` (source lines 268–289), on the parsed
query parameters.  `if (error)` / `if (!state …)` / `if (!code)` test string
truthiness, i.e. non-emptiness of the normalized value. -/
def parseOAuthUrl (q : QueryParams) (expectedState : List Nat) :
    Except OAuthError OAuthSessionResult :=
  let error := normalizeString q.error
  let errorDescription := normalizeString q.error_description
  if error ≠ [] then .error (.provider error errorDescription)
  else
    let state := normalizeString q.state
    if state = [] ∨ state ≠ expectedState then .error .invalidState
    else
      let code := normalizeString q.code
      if code = [] then .error .missingCode
      else .ok ⟨code⟩

/-! ## Provider profile normalization (source lines 384–397 and 457–468)

The network portions of `authenticateWithLine` / `authenticateWithX` are
external effects; the embedded functions below are their final pure steps:
normalizing the fetched profile (plus, for LINE, the decoded ID-token
payload) into a `SocialAuthProfile`, or throwing.  Optional JSON fields are
`Option`; `x ?? y` takes `x` whenever it is `some` (even `some []`), while
`if (!v)` is also true for the empty string. -/

/-- Source `SocialAuthProfile` (source lines 6–11). -/
structure SocialAuthProfile where
  externalId : List Nat
  name : List Nat
  email : Option (List Nat)
  avatarUrl : Option (List Nat)
deriving Repr, DecidableEq

/-- Source `LineProfileResponse` (source lines 24–28). -/
structure LineProfileResponse where
  userId : Option (List Nat)
  displayName : Option (List Nat)
  pictureUrl : Option (List Nat)
deriving Repr, DecidableEq

/-- The `data` object of an X `/users/me` response (source lines 38–45); all
fields are optional at runtime since they come from untyped JSON. -/
structure XUser where
  id : Option (List Nat)
  name : Option (List Nat)
  username : Option (List Nat)
  profile_image_url : Option (List Nat)
deriving Repr, DecidableEq

/-- Source `XMeResponse` (source lines 38–45). -/
structure XMeResponse where
  data : Option XUser
deriving Repr, DecidableEq

/-- The name fallback chain `profile.displayName ?? idPayload?.name ?? 'LINE User'`. -/
def lineName (profile : LineProfileResponse) (idPayload : Option JwtPayload) : List Nat :=
  match profile.displayName with
  | some n => n
  | none =>
      match idPayload.bind JwtPayload.name with
      | some n => n
      | none => strUnits "LINE User"

/-- The normalization tail of `authenticateWithLine` (source lines 384–397):
`externalId = profile.userId ?? idPayload?.sub`, thrown `Error('LINE profile
did not include user id.')` when `!externalId` (absent or empty), then the
profile record. -/
def authenticateWithLineResult (profile : LineProfileResponse)
    (idPayload : Option JwtPayload) : Except (List Nat) SocialAuthProfile :=
  let externalId := match profile.userId with
    | some u => some u
    | none => idPayload.bind JwtPayload.sub
  match externalId with
  | none => .error (strUnits "LINE profile did not include user id.")
  | some eid =>
      if eid = [] then .error (strUnits "LINE profile did not include user id.")
      else .ok { externalId := eid, name := lineName profile idPayload,
                 email := idPayload.bind JwtPayload.email, avatarUrl := profile.pictureUrl }

/-- The name fallback chain `user.name ?? user.username ?? 'X User'`. -/
def xName (user : XUser) : List Nat :=
  match user.name with
  | some n => n
  | none =>
      match user.username with
      | some n => n
      | none => strUnits "X User"

/-- The normalization tail of `authenticateWithX` (source lines 457–468):
thrown `Error('X profile did not include user id.')` when `!user?.id` (no
`data`, no `id`, or empty `id`), else the profile record with `email: null`. -/
def authenticateWithXResult (me : XMeResponse) : Except (List Nat) SocialAuthProfile :=
  match me.data with
  | none => .error (strUnits "X profile did not include user id.")
  | some user =>
      match user.id with
      | none => .error (strUnits "X profile did not include user id.")
      | some i =>
          if i = [] then .error (strUnits "X profile did not include user id.")
          else .ok { externalId := i, name := xName user,
                     email := none, avatarUrl := user.profile_image_url }

/-! ## Arithmetic helper lemmas (bitwise operations as arithmetic) -/

/-- Masking: `x &&& 63` is `x % 64`. -/
theorem and_63 (x : Nat) : x &&& 63 = x % 64 := by
  have h := Nat.and_pow_two_sub_one_eq_mod x 6
  norm_num at h
  exact h

/-- Masking: `x &&& 255` is `x % 256`. -/
theorem and_255 (x : Nat) : x &&& 255 = x % 256 := by
  have h := Nat.and_pow_two_sub_one_eq_mod x 8
  norm_num at h
  exact h

/-- Disjoint `|||` is addition: `2^k * a ||| b = 2^k * a + b` for `b < 2^k`. -/
theorem or_mul_add {k b : Nat} (a : Nat) (h : b < 2 ^ k) :
    (2 ^ k * a) ||| b = 2 ^ k * a + b := (Nat.mul_add_lt_is_or h a).symm

/-- The encoder's packed triple `(a << 16) | (b << 8) | c` as arithmetic. -/
theorem triple_eq {b c : Nat} (a : Nat) (hb : b < 256) (hc : c < 256) :
    (a <<< 16) ||| (b <<< 8) ||| c = a * 65536 + b * 256 + c := by
  have h16 : a <<< 16 = 2 ^ 16 * a := by rw [Nat.shiftLeft_eq]; ring
  have h8 : b <<< 8 = 2 ^ 8 * b := by rw [Nat.shiftLeft_eq]; ring
  have e1 : (2 ^ 16 * a) ||| (2 ^ 8 * b) = 2 ^ 16 * a + 2 ^ 8 * b :=
    or_mul_add a (by norm_num; omega)
  have e2 : 2 ^ 16 * a + 2 ^ 8 * b = 2 ^ 8 * (2 ^ 8 * a + b) := by ring
  rw [h16, h8, e1, e2, or_mul_add _ (by norm_num; omega)]
  norm_num
  ring

/-- The decoder's packed chunk `(n1 << 18) | (n2 << 12) | (n3 << 6) | n4` as
arithmetic, for 6-bit digits. -/
theorem or4_eq {n2 n3 n4 : Nat} (n1 : Nat) (h2 : n2 < 64) (h3 : n3 < 64) (h4 : n4 < 64) :
    (n1 <<< 18) ||| (n2 <<< 12) ||| (n3 <<< 6) ||| n4 =
      n1 * 262144 + n2 * 4096 + n3 * 64 + n4 := by
  have s18 : n1 <<< 18 = 2 ^ 18 * n1 := by rw [Nat.shiftLeft_eq]; ring
  have s12 : n2 <<< 12 = 2 ^ 12 * n2 := by rw [Nat.shiftLeft_eq]; ring
  have s6 : n3 <<< 6 = 2 ^ 6 * n3 := by rw [Nat.shiftLeft_eq]; ring
  have e1 : (2 ^ 18 * n1) ||| (2 ^ 12 * n2) = 2 ^ 18 * n1 + 2 ^ 12 * n2 :=
    or_mul_add n1 (by norm_num; omega)
  have e2 : 2 ^ 18 * n1 + 2 ^ 12 * n2 = 2 ^ 12 * (2 ^ 6 * n1 + n2) := by ring
  have e3 : (2 ^ 12 * (2 ^ 6 * n1 + n2)) ||| (2 ^ 6 * n3) =
      2 ^ 12 * (2 ^ 6 * n1 + n2) + 2 ^ 6 * n3 :=
    or_mul_add _ (by norm_num; omega)
  have e4 : 2 ^ 12 * (2 ^ 6 * n1 + n2) + 2 ^ 6 * n3 =
      2 ^ 6 * (2 ^ 12 * n1 + 2 ^ 6 * n2 + n3) := by ring
  rw [s18, s12, s6, e1, e2, e3, e4, or_mul_add _ (by norm_num; omega)]
  norm_num
  ring

/-! ## Alphabet lemmas -/

/-- Masked values `n &&& 63` are valid indices into the 64-character alphabets. -/
theorem and_63_lt (n : Nat) : n &&& 63 < 64 := by
  rw [and_63]; omega

/-- Indexing then searching the standard alphabet is the identity on `[0, 64)`. -/
theorem jsIndexOf_base64_getD : ∀ m < 64,
    jsIndexOf BASE64_CHARS (BASE64_CHARS.getD m 0) = Int.ofNat m := by decide

/-- Searching `BASE64_CHARS.indexOf` recovers the 6-bit value behind `b64Char`. -/
theorem jsIndexOf_b64Char (n : Nat) :
    jsIndexOf BASE64_CHARS (b64Char n) = Int.ofNat (n &&& 63) :=
  jsIndexOf_base64_getD (n &&& 63) (and_63_lt n)

/-- No standard-alphabet character is `=` (61). -/
theorem base64_getD_ne_61 : ∀ m < 64, BASE64_CHARS.getD m 0 ≠ 61 := by decide

/-- Characters from `b64Char` are never `=`. -/
theorem b64Char_ne_61 (n : Nat) : b64Char n ≠ 61 :=
  base64_getD_ne_61 (n &&& 63) (and_63_lt n)

/-- No URL-safe-alphabet character is `=` (61). -/
theorem url_getD_ne_61 : ∀ m < 64, URL_SAFE_CHARS.getD m 0 ≠ 61 := by decide

/-- Characters from `urlChar` are never `=`. -/
theorem urlChar_ne_61 (n : Nat) : urlChar n ≠ 61 :=
  url_getD_ne_61 (n &&& 63) (and_63_lt n)

/-- Substitution by `toBase64Url` turns the standard alphabet into the URL-safe
one, position by position. -/
theorem substChar_base64_getD : ∀ m < 64,
    substChar (BASE64_CHARS.getD m 0) = URL_SAFE_CHARS.getD m 0 := by decide

/-- Substitution carries `b64Char` to `urlChar`. -/
theorem substChar_b64Char (n : Nat) : substChar (b64Char n) = urlChar n :=
  substChar_base64_getD (n &&& 63) (and_63_lt n)

/-- The reverse substitution carries the URL-safe alphabet back, position by
position. -/
theorem unsubChar_url_getD : ∀ m < 64,
    unsubChar (URL_SAFE_CHARS.getD m 0) = BASE64_CHARS.getD m 0 := by decide

/-- Reverse substitution carries `urlChar` back to `b64Char`. -/
theorem unsubChar_urlChar (n : Nat) : unsubChar (urlChar n) = b64Char n :=
  unsubChar_url_getD (n &&& 63) (and_63_lt n)

/-- Substitution fixes `=`. -/
theorem substChar_61 : substChar 61 = 61 := by decide

/-- Reverse substitution fixes `=`. -/
theorem unsubChar_61 : unsubChar 61 = 61 := by decide

/-- The two `.replace` passes of `toBase64Url` fuse into `substChar`. -/
theorem toBase64Url_eq_subst (l : List Nat) :
    toBase64Url l = dropTrailingEq (l.map substChar) := by
  unfold toBase64Url
  rw [List.map_map]
  congr 1
  apply List.map_congr_left
  intro c _
  simp only [Function.comp, substChar]
  split_ifs <;> omega

/-- The two `.replace` passes of `base64UrlToBytes` fuse into `unsubChar`. -/
theorem base64UrlToBytes_eq_unsub (l : List Nat) :
    base64UrlToBytes l = decodeGroups (padTo4 (l.map unsubChar)) := by
  unfold base64UrlToBytes padTo4
  rw [List.map_map]
  have h : ((fun c => if c = 95 then 47 else c) ∘ fun c => if c = 45 then 43 else c) = unsubChar := by
    funext c
    simp only [Function.comp, unsubChar]
    split_ifs <;> omega
  rw [h]

/-! ## List plumbing lemmas -/

/-- Stripping trailing `=` passes over a prefix that contains none. -/
theorem dropTrailingEq_append {A : List Nat} (B : List Nat)
    (h : ∀ c ∈ A, c ≠ 61) : dropTrailingEq (A ++ B) = A ++ dropTrailingEq B := by
  induction A with
  | nil => simp
  | cons c A ih =>
      have hc : c ≠ 61 := h c (by simp)
      have hA : ∀ x ∈ A, x ≠ 61 := fun x hx => h x (by simp [hx])
      simp only [List.cons_append, dropTrailingEq]
      rw [if_neg (by simp [hc])]
      exact congrArg _ (ih hA)

/-- Padding distributes over a leading 4-character group. -/
theorem padTo4_append {A : List Nat} (s : List Nat) (hA : A.length = 4) :
    padTo4 (A ++ s) = A ++ padTo4 s := by
  unfold padTo4
  rw [List.append_assoc]
  congr 2
  simp [List.length_append, hA]
  omega

/-- Stripping the two `=` of a final 1-byte group. -/
theorem dropTrailingEq_two (u1 u2 : Nat) (h1 : u1 ≠ 61) (h2 : u2 ≠ 61) :
    dropTrailingEq [u1, u2, 61, 61] = [u1, u2] := by
  have h := dropTrailingEq_append (A := [u1, u2]) [61, 61]
    (by intro c hc; fin_cases hc <;> assumption)
  simpa [show dropTrailingEq [61, 61] = [] by decide] using h

/-- Stripping the one `=` of a final 2-byte group. -/
theorem dropTrailingEq_three (u1 u2 u3 : Nat) (h1 : u1 ≠ 61) (h2 : u2 ≠ 61) (h3 : u3 ≠ 61) :
    dropTrailingEq [u1, u2, u3, 61] = [u1, u2, u3] := by
  have h := dropTrailingEq_append (A := [u1, u2, u3]) [61]
    (by intro c hc; fin_cases hc <;> assumption)
  simpa [show dropTrailingEq [61] = [] by decide] using h

/-- Application of `toBase64Url` to an appended list whose head part substitutes to
non-`=` characters splits pointwise. -/
theorem toBase64Url_append (G R : List Nat) (h : ∀ c ∈ G.map substChar, c ≠ 61) :
    toBase64Url (G ++ R) = G.map substChar ++ toBase64Url R := by
  rw [toBase64Url_eq_subst, List.map_append, dropTrailingEq_append _ h, ← toBase64Url_eq_subst]

/-- The Base64URL encoder of the source equals the specification-level
unpadded Base64URL encoding: substituting `+`→`-`, `/`→`_` and stripping the
trailing `=` of `bytesToBase64` yields exactly the 6-bit groups mapped into
the URL-safe alphabet with no padding. -/
theorem toBase64Url_bytesToBase64 (x : List Nat) :
    toBase64Url (bytesToBase64 x) = base64UrlSpec x := by
  induction x using bytesToBase64.induct with
  | case1 => rfl
  | case2 a =>
      simp only [bytesToBase64, base64UrlSpec, toBase64Url_eq_subst, List.map_cons,
        List.map_nil, substChar_b64Char, substChar_61]
      exact dropTrailingEq_two _ _ (urlChar_ne_61 _) (urlChar_ne_61 _)
  | case3 a b =>
      simp only [bytesToBase64, base64UrlSpec, toBase64Url_eq_subst, List.map_cons,
        List.map_nil, substChar_b64Char, substChar_61]
      exact dropTrailingEq_three _ _ _ (urlChar_ne_61 _) (urlChar_ne_61 _) (urlChar_ne_61 _)
  | case4 a b c rest ih =>
      simp only [bytesToBase64]
      rw [toBase64Url_append _ _ (by
        intro x hx
        simp only [List.map_cons, List.map_nil, substChar_b64Char] at hx
        fin_cases hx <;> exact urlChar_ne_61 _)]
      rw [ih]
      simp only [List.map_cons, List.map_nil, substChar_b64Char, base64UrlSpec]

/-! ## Decoding one 4-character group -/

/-- The unsigned 32-bit view of a found index is the index itself. -/
theorem u32OfInt_ofNat {m : Nat} (h : m < 4294967296) : u32OfInt (Int.ofNat m) = m := by
  unfold u32OfInt
  have h2 : ((2 : Int) ^ 32) = 4294967296 := by norm_num
  rw [h2, show Int.ofNat m = (m : Int) from rfl]
  omega

/-- Conversion `Int.toNat` inverts `Int.ofNat`. -/
theorem toNat_ofNat_eq (m : Nat) : (Int.ofNat m).toNat = m := rfl

/-- A found index is never negative. -/
theorem ite_intNeg {α : Sort _} (m : Nat) (x y : α) :
    (if Int.ofNat m < 0 then x else y) = y := if_neg (by exact not_lt.mpr (Int.ofNat_nonneg m))

/-- A found index passes the `>= 0` push test. -/
theorem ite_intNonneg {α : Sort _} (m : Nat) (x y : α) :
    (if 0 ≤ Int.ofNat m then x else y) = x := if_pos (Int.ofNat_nonneg m)

/-- Decoding a full group of four alphabet characters recovers three bytes. -/
theorem decodeGroup_chars (n1 n2 n3 n4 : Nat) (h1 : n1 < 64) (h2 : n2 < 64)
    (h3 : n3 < 64) (h4 : n4 < 64) :
    decodeGroup (BASE64_CHARS.getD n1 0) (BASE64_CHARS.getD n2 0)
      (BASE64_CHARS.getD n3 0) (BASE64_CHARS.getD n4 0) =
      [n1 * 4 + n2 / 16, (n2 % 16) * 16 + n3 / 4, (n3 % 4) * 64 + n4] := by
  simp only [decodeGroup, if_neg (base64_getD_ne_61 n3 h3), if_neg (base64_getD_ne_61 n4 h4),
    jsIndexOf_base64_getD n1 h1, jsIndexOf_base64_getD n2 h2, jsIndexOf_base64_getD n3 h3,
    jsIndexOf_base64_getD n4 h4, u32OfInt_ofNat (by omega : n1 < 4294967296),
    u32OfInt_ofNat (by omega : n2 < 4294967296), ite_intNeg, ite_intNonneg, toNat_ofNat_eq]
  rw [or4_eq n1 h2 h3 h4, Nat.mod_eq_of_lt (by norm_num; omega)]
  simp only [Nat.shiftRight_eq_div_pow, and_255, List.cons_append, List.nil_append,
    List.cons.injEq, and_true]
  norm_num
  omega

/-- Decoding a group ending in one `=` recovers two bytes. -/
theorem decodeGroup_chars2 (n1 n2 n3 : Nat) (h1 : n1 < 64) (h2 : n2 < 64) (h3 : n3 < 64) :
    decodeGroup (BASE64_CHARS.getD n1 0) (BASE64_CHARS.getD n2 0)
      (BASE64_CHARS.getD n3 0) 61 =
      [n1 * 4 + n2 / 16, (n2 % 16) * 16 + n3 / 4] := by
  simp only [decodeGroup, if_neg (base64_getD_ne_61 n3 h3),
    jsIndexOf_base64_getD n1 h1, jsIndexOf_base64_getD n2 h2, jsIndexOf_base64_getD n3 h3,
    u32OfInt_ofNat (by omega : n1 < 4294967296), u32OfInt_ofNat (by omega : n2 < 4294967296),
    ite_intNeg, ite_intNonneg, toNat_ofNat_eq, eq_self_iff_true, if_true,
    if_pos (show (-1 : Int) < 0 by decide), if_neg (show ¬(0 : Int) ≤ -1 by decide)]
  rw [or4_eq n1 h2 h3 (by omega), Nat.mod_eq_of_lt (by norm_num; omega)]
  simp only [Nat.shiftRight_eq_div_pow, and_255, List.cons_append, List.nil_append,
    List.append_nil, List.cons.injEq, and_true]
  norm_num
  omega

/-- Decoding a group ending in two `=` recovers one byte. -/
theorem decodeGroup_chars1 (n1 n2 : Nat) (h1 : n1 < 64) (h2 : n2 < 64) :
    decodeGroup (BASE64_CHARS.getD n1 0) (BASE64_CHARS.getD n2 0) 61 61 =
      [n1 * 4 + n2 / 16] := by
  simp only [decodeGroup,
    jsIndexOf_base64_getD n1 h1, jsIndexOf_base64_getD n2 h2,
    u32OfInt_ofNat (by omega : n1 < 4294967296), u32OfInt_ofNat (by omega : n2 < 4294967296),
    ite_intNeg, ite_intNonneg, toNat_ofNat_eq, eq_self_iff_true, if_true,
    if_pos (show (-1 : Int) < 0 by decide), if_neg (show ¬(0 : Int) ≤ -1 by decide)]
  rw [or4_eq n1 h2 (by omega) (by omega), Nat.mod_eq_of_lt (by norm_num; omega)]
  simp only [Nat.shiftRight_eq_div_pow, and_255, List.append_nil, List.cons.injEq, and_true]
  norm_num
  omega

/-- Decoding the four characters encoding bytes `a b c` recovers `[a, b, c]`. -/
theorem decodeGroup_enc3 {a b c : Nat} (ha : a < 256) (hb : b < 256) (hc : c < 256) :
    decodeGroup (b64Char (((a <<< 16) ||| (b <<< 8) ||| c) >>> 18))
      (b64Char (((a <<< 16) ||| (b <<< 8) ||| c) >>> 12))
      (b64Char (((a <<< 16) ||| (b <<< 8) ||| c) >>> 6))
      (b64Char ((a <<< 16) ||| (b <<< 8) ||| c)) = [a, b, c] := by
  simp only [b64Char]
  rw [decodeGroup_chars _ _ _ _ (and_63_lt _) (and_63_lt _) (and_63_lt _) (and_63_lt _)]
  simp only [and_63, Nat.shiftRight_eq_div_pow, triple_eq a hb hc]
  norm_num
  omega

/-- Decoding the three characters (plus `=`) encoding bytes `a b` recovers
`[a, b]`. -/
theorem decodeGroup_enc2 {a b : Nat} (ha : a < 256) (hb : b < 256) :
    decodeGroup (b64Char (((a <<< 16) ||| (b <<< 8) ||| 0) >>> 18))
      (b64Char (((a <<< 16) ||| (b <<< 8) ||| 0) >>> 12))
      (b64Char (((a <<< 16) ||| (b <<< 8) ||| 0) >>> 6)) 61 = [a, b] := by
  simp only [b64Char]
  rw [decodeGroup_chars2 _ _ _ (and_63_lt _) (and_63_lt _) (and_63_lt _)]
  simp only [and_63, Nat.shiftRight_eq_div_pow, triple_eq a hb (by norm_num : (0 : Nat) < 256)]
  norm_num
  omega

/-- Decoding the two characters (plus `==`) encoding byte `a` recovers `[a]`. -/
theorem decodeGroup_enc1 {a : Nat} (ha : a < 256) :
    decodeGroup (b64Char (((a <<< 16) ||| (0 <<< 8) ||| 0) >>> 18))
      (b64Char (((a <<< 16) ||| (0 <<< 8) ||| 0) >>> 12)) 61 61 = [a] := by
  simp only [b64Char]
  rw [decodeGroup_chars1 _ _ (and_63_lt _) (and_63_lt _)]
  simp only [and_63, Nat.shiftRight_eq_div_pow,
    triple_eq a (by norm_num : (0 : Nat) < 256) (by norm_num : (0 : Nat) < 256)]
  norm_num
  omega

/-- Padding a 2-character tail adds two `=`. -/
theorem padTo4_two (u1 u2 : Nat) : padTo4 [u1, u2] = [u1, u2, 61, 61] := by
  simp [padTo4, List.replicate]

/-- Padding a 3-character tail adds one `=`. -/
theorem padTo4_three (u1 u2 u3 : Nat) : padTo4 [u1, u2, u3] = [u1, u2, u3, 61] := by
  simp [padTo4, List.replicate]

/-- Decoding inverts the specification-level encoder on byte sequences. -/
theorem base64UrlToBytes_base64UrlSpec (x : List Nat) (hx : ∀ v ∈ x, v < 256) :
    base64UrlToBytes (base64UrlSpec x) = x := by
  induction x using base64UrlSpec.induct with
  | case1 => rfl
  | case2 a =>
      have ha : a < 256 := hx a (by simp)
      rw [base64UrlToBytes_eq_unsub]
      simp only [base64UrlSpec, List.map_cons, List.map_nil, unsubChar_urlChar]
      rw [padTo4_two]
      simp only [decodeGroups, decodeGroup_enc1 ha, List.append_nil]
  | case3 a b =>
      have ha : a < 256 := hx a (by simp)
      have hb : b < 256 := hx b (by simp)
      rw [base64UrlToBytes_eq_unsub]
      simp only [base64UrlSpec, List.map_cons, List.map_nil, unsubChar_urlChar]
      rw [padTo4_three]
      simp only [decodeGroups, decodeGroup_enc2 ha hb, List.append_nil]
  | case4 a b c rest ih =>
      have ha : a < 256 := hx a (by simp)
      have hb : b < 256 := hx b (by simp)
      have hc : c < 256 := hx c (by simp)
      have hrest : ∀ v ∈ rest, v < 256 := fun v hv => hx v (by simp [hv])
      rw [base64UrlToBytes_eq_unsub]
      simp only [base64UrlSpec, List.map_append, List.map_cons, List.map_nil, unsubChar_urlChar]
      rw [padTo4_append _ (by simp)]
      simp only [List.cons_append, List.nil_append, decodeGroups]
      rw [decodeGroup_enc3 ha hb hc]
      simp only [List.append_eq, List.nil_append]
      rw [← base64UrlToBytes_eq_unsub, ih hrest]
      rfl

/-! ## Alphabet membership -/

/-- An in-range `getD` lookup is a member of the list. -/
theorem getD_mem_of_lt {l : List Nat} {n : Nat} (h : n < l.length) (d : Nat) :
    l.getD n d ∈ l := by
  rw [List.getD_eq_getElem?_getD, List.getElem?_eq_getElem h]
  exact List.getElem_mem h

/-- Characters from `urlChar` lie in the URL-safe alphabet. -/
theorem urlChar_mem (n : Nat) : urlChar n ∈ URL_SAFE_CHARS :=
  getD_mem_of_lt (by have := and_63_lt n; simpa [URL_SAFE_CHARS, strUnits]) 0

/-- Characters from `b64Char` lie in the standard alphabet. -/
theorem b64Char_mem (n : Nat) : b64Char n ∈ BASE64_CHARS :=
  getD_mem_of_lt (by have := and_63_lt n; simpa [BASE64_CHARS, strUnits]) 0

/-- Every character of the specification-level Base64URL encoding belongs to
the URL-safe alphabet. -/
theorem base64UrlSpec_mem (x : List Nat) : ∀ c ∈ base64UrlSpec x, c ∈ URL_SAFE_CHARS := by
  induction x using base64UrlSpec.induct with
  | case1 => simp [base64UrlSpec]
  | case2 a =>
      intro ch hch
      simp only [base64UrlSpec, List.mem_cons, List.not_mem_nil, or_false] at hch
      rcases hch with rfl | rfl <;> exact urlChar_mem _
  | case3 a b =>
      intro ch hch
      simp only [base64UrlSpec, List.mem_cons, List.not_mem_nil, or_false] at hch
      rcases hch with rfl | rfl | rfl <;> exact urlChar_mem _
  | case4 a b c rest ih =>
      intro ch hch
      simp only [base64UrlSpec, List.cons_append, List.nil_append, List.mem_cons] at hch
      rcases hch with rfl | rfl | rfl | rfl | h
      · exact urlChar_mem _
      · exact urlChar_mem _
      · exact urlChar_mem _
      · exact urlChar_mem _
      · exact ih ch h

/-- Every character of `bytesToBase64` output is a standard-alphabet
character or the `=` pad. -/
theorem bytesToBase64_mem (x : List Nat) :
    ∀ c ∈ bytesToBase64 x, c ∈ BASE64_CHARS ∨ c = 61 := by
  induction x using bytesToBase64.induct with
  | case1 => simp [bytesToBase64]
  | case2 a =>
      intro ch hch
      simp only [bytesToBase64, List.mem_cons, List.not_mem_nil, or_false] at hch
      rcases hch with rfl | rfl | rfl | rfl
      · exact Or.inl (b64Char_mem _)
      · exact Or.inl (b64Char_mem _)
      · exact Or.inr rfl
      · exact Or.inr rfl
  | case3 a b =>
      intro ch hch
      simp only [bytesToBase64, List.mem_cons, List.not_mem_nil, or_false] at hch
      rcases hch with rfl | rfl | rfl | rfl
      · exact Or.inl (b64Char_mem _)
      · exact Or.inl (b64Char_mem _)
      · exact Or.inl (b64Char_mem _)
      · exact Or.inr rfl
  | case4 a b c rest ih =>
      intro ch hch
      simp only [bytesToBase64, List.cons_append, List.nil_append, List.mem_cons] at hch
      rcases hch with rfl | rfl | rfl | rfl | h
      · exact Or.inl (b64Char_mem _)
      · exact Or.inl (b64Char_mem _)
      · exact Or.inl (b64Char_mem _)
      · exact Or.inl (b64Char_mem _)
      · exact ih ch h

/-- The URL-safe alphabet contains neither `+` (43) nor `/` (47) nor `=` (61). -/
theorem url_safe_no_reserved :
    43 ∉ URL_SAFE_CHARS ∧ 47 ∉ URL_SAFE_CHARS ∧ 61 ∉ URL_SAFE_CHARS := by decide

/-! ## UTF-8 decoding of ASCII bytes -/

/-- Decoding a pure-ASCII byte sequence is the identity. -/
theorem utf8DecodeLoop_ascii (l : List Nat) (h : ∀ b ∈ l, b < 128) :
    utf8DecodeLoop l none = l := by
  induction l with
  | nil => rfl
  | cons b rest ih =>
      have hb : b ≤ 0x7f := by have := h b (by simp); omega
      have hrest : ∀ x ∈ rest, x < 128 := fun x hx => h x (by simp [hx])
      simp only [utf8DecodeLoop, show utf8StartByte b = Utf8Start.emit b from by
        unfold utf8StartByte; rw [if_pos hb]]
      exact congrArg (b :: ·) (ih hrest)

/-! ## Claim theorems -/

/-- The digest always consists of the 32 big-endian bytes of 8 registers. -/
theorem sha256_length (m : List Nat) : (sha256 m).length = 32 := by
  simp [sha256, u32be]

/-- C1: for every byte sequence `m`, `sha256(m)` returns exactly 32 bytes; the
digest of the empty sequence is `e3b0c442…b855` and the digest of the UTF-8
bytes of `"abc"` is `ba7816bf…15ad` (the FIPS 180-4 / NIST test vectors).  All
additions of the compression loop wrap modulo `2^32` by construction of the
embedded `compressRound` / `compressBlock` / `extendSchedule` (each sum is
reduced `% 2^32`, mirroring the `| 0` / `>>> 0` coercions of the source). -/
theorem sha256_digest_spec :
    (∀ m : List Nat, (sha256 m).length = 32) ∧
    sha256 [] =
      [227, 176, 196, 66, 152, 252, 28, 20, 154, 251, 244, 200,
       153, 111, 185, 36, 39, 174, 65, 228, 100, 155, 147, 76,
       164, 149, 153, 27, 120, 82, 184, 85] ∧
    sha256 (utf8Encode (strUnits "abc")) =
      [186, 120, 22, 191, 143, 1, 207, 234, 65, 65, 64, 222,
       93, 174, 34, 35, 176, 3, 97, 163, 150, 23, 122, 156,
       180, 16, 255, 97, 242, 0, 21, 173] :=
  ⟨sha256_length, by decide, by decide⟩

/-- C9: `randomString(n)` yields exactly `n` characters for every requested
length and every behaviour of the random byte source, each drawn from the
PKCE unreserved charset `[A-Za-z0-9-._~]`; in particular the 32-character
`state` meets the at-least-32 requirement and the 64-character code verifier
lies in PKCE's 43–128 range. -/
theorem randomString_spec :
    (∀ (n : Nat) (r : Nat → Nat), (randomString n r).length = n ∧
      ∀ c ∈ randomString n r, c ∈ PKCE_CHARSET) ∧
    (∀ r : Nat → Nat, (randomString 32 r).length = 32 ∧ 32 ≤ (randomString 32 r).length ∧
      (randomString 64 r).length = 64 ∧ 43 ≤ (randomString 64 r).length ∧
      (randomString 64 r).length ≤ 128) := by
  have len : ∀ (n : Nat) (r : Nat → Nat), (randomString n r).length = n := by
    intro n r
    simp [randomString]
  refine ⟨fun n r => ⟨len n r, ?_⟩, fun r => ?_⟩
  · intro c hc
    simp only [randomString, List.mem_map, List.mem_range] at hc
    obtain ⟨i, _, rfl⟩ := hc
    exact getD_mem_of_lt (Nat.mod_lt _ (by decide)) 0
  · refine ⟨len 32 r, ?_, len 64 r, ?_, ?_⟩ <;> rw [len] <;> omega

/-- C4: `createCodeChallenge(v)` is exactly the unpadded Base64URL encoding of
the SHA-256 digest of the UTF-8 bytes of `v` (via the proved normal form of
`toBase64Url ∘ bytesToBase64`), and it is a deterministic pure function of the
verifier. -/
theorem createCodeChallenge_spec :
    (∀ v : List Nat, createCodeChallenge v = base64UrlSpec (sha256 (utf8Encode v))) ∧
    (∀ v w : List Nat, v = w → createCodeChallenge v = createCodeChallenge w) := by
  refine ⟨fun v => ?_, fun v w h => by rw [h]⟩
  unfold createCodeChallenge
  exact toBase64Url_bytesToBase64 _

/-- Witness for `createCodeChallenge_spec` at the verifier `"a"`. -/
theorem createCodeChallenge_spec_witness :
    createCodeChallenge (strUnits "a") = base64UrlSpec (sha256 (utf8Encode (strUnits "a"))) ∧
    createCodeChallenge (strUnits "a") = createCodeChallenge (strUnits "a") :=
  ⟨createCodeChallenge_spec.1 (strUnits "a"), createCodeChallenge_spec.2 _ _ rfl⟩

/-- C8: every character of `toBase64Url(bytesToBase64(b))` belongs to the
URL-safe alphabet `[A-Za-z0-9-_]` and is none of `+`, `/`, `=`; `bytesToBase64`
emits only standard-alphabet characters and `=` padding; and `toBase64Url` is
exactly the substitution `+`→`-`, `/`→`_` followed by stripping trailing `=`. -/
theorem base64url_alphabet_spec :
    (∀ (b : List Nat) (c : Nat), c ∈ toBase64Url (bytesToBase64 b) →
      c ∈ URL_SAFE_CHARS ∧ c ≠ 43 ∧ c ≠ 47 ∧ c ≠ 61) ∧
    (∀ (b : List Nat) (c : Nat), c ∈ bytesToBase64 b → c ∈ BASE64_CHARS ∨ c = 61) ∧
    (∀ s : List Nat, toBase64Url s = dropTrailingEq (s.map substChar)) := by
  refine ⟨?_, bytesToBase64_mem, toBase64Url_eq_subst⟩
  intro b c hc
  rw [toBase64Url_bytesToBase64] at hc
  have hm := base64UrlSpec_mem b c hc
  obtain ⟨h43, h47, h61⟩ := url_safe_no_reserved
  exact ⟨hm, fun h => h43 (h ▸ hm), fun h => h47 (h ▸ hm), fun h => h61 (h ▸ hm)⟩

/-- Witness for `base64url_alphabet_spec`: the encoding of `[255]` is `"_w"`,
and its first character `_` (95) is URL-safe and none of `+`, `/`, `=`. -/
theorem base64url_alphabet_spec_witness :
    95 ∈ URL_SAFE_CHARS ∧ (95 : Nat) ≠ 43 ∧ (95 : Nat) ≠ 47 ∧ (95 : Nat) ≠ 61 :=
  base64url_alphabet_spec.1 [255] 95 (by decide)

/-- C2 counterexample: for the byte sequence `[255]`, decoding the encoding
does not return the bytes: `base64UrlToString` UTF-8-decodes the recovered
byte `0xff`, which is invalid UTF-8, to the replacement character `U+FFFD`
(65533), so the result `[65533]` differs from `[255]`. -/
theorem base64url_roundtrip_cex :
    base64UrlToString (toBase64Url (bytesToBase64 [255])) = [0xfffd] ∧
    base64UrlToString (toBase64Url (bytesToBase64 [255])) ≠ [255] := by
  refine ⟨by decide, by decide⟩

/-- C2 amended: the byte-recovery stage of `base64UrlToString` inverts the
encoder exactly — `base64UrlToBytes(toBase64Url(bytesToBase64 x))) = x` for
every byte sequence `x` (all lengths, hence all residues mod 3) — and the full
string-level round trip holds whenever `x` is ASCII (every byte `< 128`), the
only deviation being the final UTF-8 text-decoding step. -/
theorem base64url_roundtrip_amended :
    ∀ x : List Nat, (∀ v ∈ x, v < 256) →
      base64UrlToBytes (toBase64Url (bytesToBase64 x)) = x ∧
      ((∀ v ∈ x, v < 128) → base64UrlToString (toBase64Url (bytesToBase64 x)) = x) := by
  intro x hx
  have hb : base64UrlToBytes (toBase64Url (bytesToBase64 x)) = x := by
    rw [toBase64Url_bytesToBase64]
    exact base64UrlToBytes_base64UrlSpec x hx
  refine ⟨hb, fun hascii => ?_⟩
  show textDecode (base64UrlToBytes _) = x
  rw [hb]
  exact utf8DecodeLoop_ascii x hascii

/-- Witness for `base64url_roundtrip_amended` at a 3-byte non-ASCII sequence
(byte recovery) and a 2-byte ASCII sequence (full string round trip). -/
theorem base64url_roundtrip_amended_witness :
    base64UrlToBytes (toBase64Url (bytesToBase64 [104, 105, 255])) = [104, 105, 255] ∧
    base64UrlToString (toBase64Url (bytesToBase64 [104, 105])) = [104, 105] :=
  ⟨(base64url_roundtrip_amended [104, 105, 255] (by decide)).1,
   (base64url_roundtrip_amended [104, 105] (by decide)).2 (by decide)⟩

/-- C7: `parseJwtPayload` is a total function of the optional token and the
`JSON.parse` collaborator: an absent token gives `null`; fewer than 2
dot-separated segments give `null`; otherwise the result is whatever parsing
the Base64URL-decoded second segment yields — `null` exactly when the parse
fails (`jsonParse` returns `none`), the parsed object (with its optional
`sub` / `name` / `email`) otherwise.  `base64UrlToString` itself is total and
never fails. -/
theorem parseJwtPayload_spec :
    ∀ (jsonParse : List Nat → Option JwtPayload) (t : List Nat),
      parseJwtPayload jsonParse none = none ∧
      ((splitOnDot t).length < 2 → parseJwtPayload jsonParse (some t) = none) ∧
      (2 ≤ (splitOnDot t).length →
        parseJwtPayload jsonParse (some t) =
          jsonParse (base64UrlToString ((splitOnDot t).getD 1 []))) := by
  intro jp t
  refine ⟨rfl, fun hlt => ?_, fun hge => ?_⟩
  · by_cases ht : t = []
    · subst ht; rfl
    · simp only [parseJwtPayload, if_neg ht]
      rw [if_pos hlt]
  · have ht : t ≠ [] := by
      intro h
      subst h
      simp [splitOnDot, splitOnDotAux] at hge
    simp only [parseJwtPayload, if_neg ht]
    rw [if_neg (by omega)]

/-- Witness for `parseJwtPayload_spec` at the token `"a.b"` and a constant
parser. -/
theorem parseJwtPayload_spec_witness :
    2 ≤ (splitOnDot (strUnits "a.b")).length ∧
    parseJwtPayload (fun _ => some ⟨none, none, none⟩) (some (strUnits "a.b")) =
      (fun _ => some (⟨none, none, none⟩ : JwtPayload))
        (base64UrlToString ((splitOnDot (strUnits "a.b")).getD 1 [])) :=
  ⟨by decide,
   (parseJwtPayload_spec (fun _ => some ⟨none, none, none⟩) (strUnits "a.b")).2.2 (by decide)⟩

/-- C3 counterexample: with the `error` query parameter present but equal to
the empty string (`?error=&state=s&code=c`, expected state `"s"`),
`parseOAuthUrl` does not fail with a provider error as clause (1) of the claim
requires — `if (error)` tests truthiness, so the empty string is treated as
absent and the parser returns the code successfully. -/
theorem parseOAuthUrl_cex :
    parseOAuthUrl ⟨.str [], .undef, .str (strUnits "s"), .str (strUnits "c")⟩ (strUnits "s") =
      .ok ⟨strUnits "c"⟩ := rfl

/-- C3 amended: the ordered policy holds with truthiness in place of presence:
(1) a present **non-empty** string `error` fails with the provider error
carrying `error` and `error_description`; (2) otherwise a missing, empty or
mismatching `state` fails with the state-mismatch error even when `code` is
present; (3) otherwise a missing, non-string or **empty** `code` fails with
the missing-code error; (4) otherwise the callback result carries exactly
that code.  A present-but-empty `error` or `code` is treated as absent. -/
theorem parseOAuthUrl_amended :
    ∀ (q : QueryParams) (expectedState : List Nat),
      (normalizeString q.error ≠ [] →
        parseOAuthUrl q expectedState =
          .error (.provider (normalizeString q.error) (normalizeString q.error_description))) ∧
      (normalizeString q.error = [] →
        (normalizeString q.state = [] ∨ normalizeString q.state ≠ expectedState) →
        parseOAuthUrl q expectedState = .error .invalidState) ∧
      (normalizeString q.error = [] → normalizeString q.state = expectedState →
        normalizeString q.state ≠ [] → normalizeString q.code = [] →
        parseOAuthUrl q expectedState = .error .missingCode) ∧
      (normalizeString q.error = [] → normalizeString q.state = expectedState →
        normalizeString q.state ≠ [] → normalizeString q.code ≠ [] →
        parseOAuthUrl q expectedState = .ok ⟨normalizeString q.code⟩) := by
  intro q exp
  refine ⟨fun he => ?_, fun he hs => ?_, fun he hs hne hc => ?_, fun he hs hne hc => ?_⟩
  · unfold parseOAuthUrl
    rw [if_pos he]
  · unfold parseOAuthUrl
    rw [if_neg (not_not_intro he), if_pos hs]
  · unfold parseOAuthUrl
    rw [if_neg (not_not_intro he),
      if_neg (by rintro (h | h); exacts [hne h, h hs]), if_pos hc]
  · unfold parseOAuthUrl
    rw [if_neg (not_not_intro he),
      if_neg (by rintro (h | h); exacts [hne h, h hs])]
    simp only [if_neg hc]

/-- Witness for `parseOAuthUrl_amended` on the happy path. -/
theorem parseOAuthUrl_amended_witness :
    parseOAuthUrl ⟨.undef, .undef, .str (strUnits "st"), .str (strUnits "code")⟩ (strUnits "st") =
      .ok ⟨strUnits "code"⟩ :=
  (parseOAuthUrl_amended ⟨.undef, .undef, .str (strUnits "st"), .str (strUnits "code")⟩
    (strUnits "st")).2.2.2 rfl rfl (by decide) (by decide)

/-- A non-string query value normalizes to the empty string. -/
theorem normalizeString_of_not_str (v : JSValue) (h : v.isStr = false) :
    normalizeString v = [] := by
  cases v <;> simp_all [JSValue.isStr, normalizeString]

/-- C10 counterexample: with a non-empty string `error` present and a
non-string `state` (an array containing exactly the expected state),
`parseOAuthUrl` reports the provider error, not a state mismatch — refuting
the claim's "a non-string `state` value always fails as a state mismatch". -/
theorem parseOAuthUrl_nonstring_cex :
    parseOAuthUrl ⟨.str (strUnits "boom"), .undef, .arr [strUnits "s"], .str (strUnits "c")⟩
      (strUnits "s") = .error (.provider (strUnits "boom") []) ∧
    parseOAuthUrl ⟨.str (strUnits "boom"), .undef, .arr [strUnits "s"], .str (strUnits "c")⟩
      (strUnits "s") ≠ .error .invalidState := by
  refine ⟨rfl, fun h => ?_⟩
  rw [show parseOAuthUrl ⟨.str (strUnits "boom"), .undef, .arr [strUnits "s"],
    .str (strUnits "c")⟩ (strUnits "s") = .error (.provider (strUnits "boom") []) from rfl] at h
  exact absurd (Except.error.inj h) (by decide)

/-- C10 amended: `normalizeString` coerces every non-string query value
(absent, array-valued or otherwise non-string) to the empty string before the
policy runs; consequently a non-string `error` can never trigger the
provider-error branch, a non-string `state` fails as a state mismatch — even
when a string inside the array equals the expected state — **provided no
non-empty string `error` is present** (the provider error takes precedence,
per the policy order), and a non-string `code` fails as missing code once the
error and state checks pass. -/
theorem parseOAuthUrl_nonstring_amended :
    (∀ v : JSValue, v.isStr = false → normalizeString v = []) ∧
    (∀ (q : QueryParams) (exp : List Nat), q.error.isStr = false →
      ∀ e d, parseOAuthUrl q exp ≠ .error (.provider e d)) ∧
    (∀ (q : QueryParams) (exp : List Nat), q.state.isStr = false →
      normalizeString q.error = [] → parseOAuthUrl q exp = .error .invalidState) ∧
    (∀ (q : QueryParams) (exp : List Nat), q.code.isStr = false →
      normalizeString q.error = [] → normalizeString q.state = exp →
      normalizeString q.state ≠ [] → parseOAuthUrl q exp = .error .missingCode) := by
  refine ⟨normalizeString_of_not_str, ?_, ?_, ?_⟩
  · intro q exp hq e d
    have he : normalizeString q.error = [] := normalizeString_of_not_str q.error hq
    unfold parseOAuthUrl
    rw [if_neg (not_not_intro he)]
    intro h
    by_cases h1 : normalizeString q.state = [] ∨ normalizeString q.state ≠ exp
    · simp only [if_pos h1] at h
      simp at h
    · simp only [if_neg h1] at h
      by_cases h2 : normalizeString q.code = []
      · simp only [if_pos h2] at h
        simp at h
      · simp only [if_neg h2] at h
        simp at h
  · intro q exp hq he
    have hs : normalizeString q.state = [] := normalizeString_of_not_str q.state hq
    unfold parseOAuthUrl
    rw [if_neg (not_not_intro he), if_pos (Or.inl hs)]
  · intro q exp hq he hs hne
    have hc : normalizeString q.code = [] := normalizeString_of_not_str q.code hq
    unfold parseOAuthUrl
    rw [if_neg (not_not_intro he),
      if_neg (by rintro (h | h); exacts [hne h, h hs])]
    simp only [if_pos hc]

/-- Witness for `parseOAuthUrl_nonstring_amended`: an array-valued `state`
containing exactly the expected state still fails as a state mismatch. -/
theorem parseOAuthUrl_nonstring_amended_witness :
    parseOAuthUrl ⟨.undef, .undef, .arr [strUnits "s"], .str (strUnits "c")⟩ (strUnits "s") =
      .error .invalidState :=
  parseOAuthUrl_nonstring_amended.2.2.1
    ⟨.undef, .undef, .arr [strUnits "s"], .str (strUnits "c")⟩ (strUnits "s") rfl rfl

/-- C5 counterexample: a LINE profile whose `userId` is present but equal to
the empty string, together with an ID token carrying a non-empty `sub`,
makes the flow fail with the missing-user-id error — whereas the claim, which
says `externalId` is `profile.userId` when present (falling back to `sub`
otherwise) and that the flow fails only when both are absent, requires
success here.  `profile.userId ?? idPayload?.sub` keeps the empty string
(`??` only skips nullish values) and `if (!externalId)` then throws on it. -/
theorem authenticateWithLine_cex :
    authenticateWithLineResult ⟨some [], none, none⟩ (some ⟨some (strUnits "S"), none, none⟩) =
      .error (strUnits "LINE profile did not include user id.") := rfl

/-- C5 amended: `externalId` is `profile.userId` when present **and
non-empty**; when `userId` is absent it is the ID-token `sub` claim when
present and non-empty; the flow fails with the missing-user-id error when
`userId` is present but empty (even if `sub` is available) or when `userId`
is absent and `sub` is absent or empty.  On success, `name` falls back
`displayName → id-token name → "LINE User"`, `email` is exactly the ID-token
`email` claim (`null` when absent, never read from the profile response), and
`avatarUrl` is `profile.pictureUrl` or `null`. -/
theorem authenticateWithLine_amended :
    ∀ (p : LineProfileResponse) (ip : Option JwtPayload),
      (∀ u, p.userId = some u → u ≠ [] →
        authenticateWithLineResult p ip =
          .ok ⟨u, lineName p ip, ip.bind JwtPayload.email, p.pictureUrl⟩) ∧
      (p.userId = some [] →
        authenticateWithLineResult p ip =
          .error (strUnits "LINE profile did not include user id.")) ∧
      (∀ s, p.userId = none → ip.bind JwtPayload.sub = some s → s ≠ [] →
        authenticateWithLineResult p ip =
          .ok ⟨s, lineName p ip, ip.bind JwtPayload.email, p.pictureUrl⟩) ∧
      (p.userId = none → (ip.bind JwtPayload.sub = none ∨ ip.bind JwtPayload.sub = some []) →
        authenticateWithLineResult p ip =
          .error (strUnits "LINE profile did not include user id.")) := by
  intro p ip
  refine ⟨fun u hu hne => ?_, fun hu => ?_, fun s hn hsub hne => ?_, fun hn hsub => ?_⟩
  · simp [authenticateWithLineResult, hu, hne]
  · simp [authenticateWithLineResult, hu]
  · simp [authenticateWithLineResult, hn, hsub, hne]
  · rcases hsub with h | h <;> simp [authenticateWithLineResult, hn, h]

/-- Witness for `authenticateWithLine_amended`: a profile with a `userId` and
no `displayName`, plus an ID token carrying only an `email`, yields the
profile with the default name and the token email. -/
theorem authenticateWithLine_amended_witness :
    authenticateWithLineResult ⟨some (strUnits "U"), none, some (strUnits "pic")⟩
        (some ⟨none, none, some (strUnits "a@b.com")⟩) =
      .ok ⟨strUnits "U", strUnits "LINE User", some (strUnits "a@b.com"), some (strUnits "pic")⟩ :=
  (authenticateWithLine_amended ⟨some (strUnits "U"), none, some (strUnits "pic")⟩
    (some ⟨none, none, some (strUnits "a@b.com")⟩)).1 (strUnits "U") rfl (by decide)

/-- C6 counterexample: a `/users/me` response whose `data.id` is present but
equal to the empty string makes the flow fail with the missing-user-id error —
whereas the claim, which fails only when `data` or `data.id` is absent,
requires success with `externalId = ""` here.  `if (!user?.id)` also throws
on the empty string. -/
theorem authenticateWithX_cex :
    authenticateWithXResult ⟨some ⟨some [], some (strUnits "N"), some (strUnits "u"), none⟩⟩ =
      .error (strUnits "X profile did not include user id.") := rfl

/-- C6 amended: the flow fails with the missing-user-id error when `data` is
absent, `data.id` is absent, **or `data.id` is the empty string**, making no
further use of the response; otherwise the profile has `externalId` exactly
`data.id` unmodified, `name` falling back `data.name → data.username →
"X User"`, `email` always `null`, and `avatarUrl` equal to
`data.profile_image_url` or `null`. -/
theorem authenticateWithX_amended :
    ∀ me : XMeResponse,
      (me.data = none →
        authenticateWithXResult me = .error (strUnits "X profile did not include user id.")) ∧
      (∀ u, me.data = some u → (u.id = none ∨ u.id = some []) →
        authenticateWithXResult me = .error (strUnits "X profile did not include user id.")) ∧
      (∀ u i, me.data = some u → u.id = some i → i ≠ [] →
        authenticateWithXResult me = .ok ⟨i, xName u, none, u.profile_image_url⟩) := by
  intro me
  refine ⟨fun hn => ?_, fun u hu hid => ?_, fun u i hu hid hne => ?_⟩
  · simp [authenticateWithXResult, hn]
  · rcases hid with h | h <;> simp [authenticateWithXResult, hu, h]
  · simp [authenticateWithXResult, hu, hid, hne]

/-- Witness for `authenticateWithX_amended`: a response with an id and a
username but no display name yields the username as the profile name and a
`null` email. -/
theorem authenticateWithX_amended_witness :
    authenticateWithXResult ⟨some ⟨some (strUnits "42"), none, some (strUnits "user"), none⟩⟩ =
      .ok ⟨strUnits "42", strUnits "user", none, none⟩ :=
  (authenticateWithX_amended ⟨some ⟨some (strUnits "42"), none, some (strUnits "user"), none⟩⟩).2.2
    ⟨some (strUnits "42"), none, some (strUnits "user"), none⟩ (strUnits "42") rfl rfl (by decide)

/-- Witness for `randomString_spec`: with an all-zero random source every
character is `A` (65), which lies in the PKCE charset. -/
theorem randomString_spec_witness : (65 : Nat) ∈ PKCE_CHARSET :=
  (randomString_spec.1 3 (fun _ => 0)).2 65 (by decide)
